import Mathlib

/-!
# Verification of the VoiceVisualizer waveform core

Shallow embedding of `src/components/VoiceVisualizer.tsx`: the live-stream
throttle, the geometry-to-time mapping, the resize geometry recomputation,
the static-render guard logic, and the bar-pitch / bar-width formulas.
Numbers manipulated by the component are embedded as rationals for layout
quantities and naturals for the tick counter; JavaScript `Math.trunc` and
`Math.round` are embedded explicitly.
-/

namespace VoiceVisualizer

/-- JavaScript `Math.trunc`: rounds toward zero. -/
def jsTrunc (x : ℚ) : ℤ := if 0 ≤ x then ⌊x⌋ else ⌈x⌉

/-- JavaScript `Math.round`: `⌊x + 1/2⌋` (half-up, also for negatives). -/
def jsRound (x : ℚ) : ℤ := ⌊x + 1/2⌋

/-! ## Derived layout quantities (lines 143–165)

`isMobile = screenWidth < 768`, `formattedSpeed = Math.trunc(speed)`,
`formattedGap = Math.trunc(gap)`,
`formattedBarWidth = Math.trunc(isMobile && formattedGap > 0 ? barWidth + 1 : barWidth)`,
`unit = formattedBarWidth + formattedGap * formattedBarWidth`. -/

def isMobile (screenWidth : ℚ) : Bool := screenWidth < 768

def formattedSpeed (speed : ℚ) : ℤ := jsTrunc speed

def formattedGap (gap : ℚ) : ℤ := jsTrunc gap

def formattedBarWidth (barWidth gap screenWidth : ℚ) : ℤ :=
  jsTrunc (if isMobile screenWidth ∧ 0 < formattedGap gap then barWidth + 1 else barWidth)

def unit (barWidth gap screenWidth : ℚ) : ℤ :=
  formattedBarWidth barWidth gap screenWidth
    + formattedGap gap * formattedBarWidth barWidth gap screenWidth

/-! ## Live-stream throttle (lines 152, 186–223)

The `useLayoutEffect` body: `indexSpeedRef` starts at `formattedSpeed`; each
invocation (tick) runs
`if (indexSpeedRef.current >= formattedSpeed || !audioData.length) { indexSpeedRef.current = 0; drawByLiveStream(...) }`
and then unconditionally `indexSpeedRef.current += 1`. -/

/-- Whether a tick with counter `c`, configured speed `speed`, and live
amplitude buffer length `audioLen` invokes `drawByLiveStream` (line 189). -/
def tickDraws (speed audioLen c : ℕ) : Bool :=
  decide (speed ≤ c) || decide (audioLen = 0)

/-- The counter after one tick: reset to 0 when the draw branch was taken
(line 190), then unconditionally incremented (line 210). -/
def tickNext (speed audioLen c : ℕ) : ℕ :=
  (if tickDraws speed audioLen c then 0 else c) + 1

/-- The counter observed by tick `n`, given the amplitude buffer length
`a k` at each tick `k`; `indexSpeedRef` is initialised to the configured
speed (line 152), so the very first tick draws. -/
def counterTrace (speed : ℕ) (a : ℕ → ℕ) : ℕ → ℕ
  | 0 => speed
  | n + 1 => tickNext speed (a n) (counterTrace speed a n)

/-- Whether tick `n` of the live-stream effect invokes the draw routine. -/
def drawsAt (speed : ℕ) (a : ℕ → ℕ) (n : ℕ) : Bool :=
  tickDraws speed (a n) (counterTrace speed a n)

/-- With amplitude data present on every tick and `speed = 3`, the counter
at tick `n ≥ 1` is `(n - 1) % 3 + 1`. -/
lemma counterTrace_three (a : ℕ → ℕ) (ha : ∀ k, a k ≠ 0) :
    ∀ n : ℕ, counterTrace 3 a n = if n = 0 then 3 else (n - 1) % 3 + 1 := by
  intro n
  induction n with
  | zero => rfl
  | succ m ih =>
    have hm : a m ≠ 0 := ha m
    have hdraw : tickDraws 3 (a m) (counterTrace 3 a m)
        = decide (3 ≤ counterTrace 3 a m) := by
      simp [tickDraws, hm]
    simp only [counterTrace, tickNext, hdraw]
    by_cases h3 : 3 ≤ counterTrace 3 a m
    · rw [if_pos (by simpa using h3)]
      rcases Nat.eq_zero_or_pos m with hm0 | hmpos
      · subst hm0; simp
      · have hmne : m ≠ 0 := Nat.pos_iff_ne_zero.mp hmpos
        rw [ih] at h3
        rw [if_neg hmne] at h3
        rw [if_neg (Nat.succ_ne_zero m)]
        omega
    · rw [if_neg (by simpa using h3)]
      rcases Nat.eq_zero_or_pos m with hm0 | hmpos
      · subst hm0; simp [counterTrace] at h3
      · have hmne : m ≠ 0 := Nat.pos_iff_ne_zero.mp hmpos
        rw [ih] at h3 ⊢
        rw [if_neg hmne] at h3 ⊢
        rw [if_neg (Nat.succ_ne_zero m)]
        omega

/-- With amplitude data present on every tick and `speed = 3`, tick `n`
draws exactly when `n` is a multiple of 3. -/
lemma drawsAt_three (a : ℕ → ℕ) (ha : ∀ k, a k ≠ 0) (n : ℕ) :
    drawsAt 3 a n = decide (n % 3 = 0) := by
  have hc := counterTrace_three a ha n
  have hn : a n ≠ 0 := ha n
  have hdraw : drawsAt 3 a n = decide (3 ≤ counterTrace 3 a n) := by
    simp [drawsAt, tickDraws, hn]
  rw [hdraw, hc]
  rcases Nat.eq_zero_or_pos n with h0 | hpos
  · subst h0; simp
  · have hne : n ≠ 0 := Nat.pos_iff_ne_zero.mp hpos
    rw [if_neg hne]
    have hmod : n % 3 = 0 ↔ (n - 1) % 3 = 2 := by omega
    by_cases h : n % 3 = 0
    · have h2 : (n - 1) % 3 = 2 := hmod.mp h
      simp [h, h2]
    · have h2 : (n - 1) % 3 ≠ 2 := fun hh => h (hmod.mpr hh)
      have h3 : ¬ (3 ≤ (n - 1) % 3 + 1) := by omega
      simp [h, h3]

/-! ## Geometry-to-time mapping (lines 383–394 and 467–469)

`handleRecordedAudioCurrentTime` assigns
`(duration / canvasCurrentWidth) * (e.clientX - rect.left)` to the playback
clock; the hover label shows
`formatRecordedAudioTime((duration / canvasCurrentWidth) * hoveredOffsetX)`. -/

def handleRecordedAudioCurrentTime
    (duration canvasCurrentWidth clientX rectLeft : ℚ) : ℚ :=
  duration / canvasCurrentWidth * (clientX - rectLeft)

/-- The time value the hover label passes to the mm:ss formatter. -/
def hoverTimeValue (duration canvasCurrentWidth hoveredOffsetX : ℚ) : ℚ :=
  duration / canvasCurrentWidth * hoveredOffsetX

/-! ## Resize geometry recomputation (lines 348–369)

`onResize` sets
`canvasCurrentHeight = Math.trunc(clientHeight * devicePixelRatio / 2) * 2`,
`canvasCurrentWidth = clientWidth`,
`canvasWidth = Math.round(clientWidth * devicePixelRatio)`,
`screenWidth = window.innerWidth`, `isResizing = false`, and resets
`indexSpeedRef` to `formattedSpeed`. -/

structure ResizeResult where
  canvasCurrentWidth : ℚ
  canvasCurrentHeight : ℤ
  canvasWidth : ℤ
  screenWidth : ℚ
  isResizing : Bool
  deriving Repr, DecidableEq

def onResize (clientWidth clientHeight devicePixelRatio innerWidth : ℚ) :
    ResizeResult :=
  { canvasCurrentWidth := clientWidth
  , canvasCurrentHeight := jsTrunc (clientHeight * devicePixelRatio / 2) * 2
  , canvasWidth := jsRound (clientWidth * devicePixelRatio)
  , screenWidth := innerWidth
  , isResizing := false }

/-! ## Static render step (lines 297–336) and background paint (lines 338–346)

The `drawByBlob` effect first returns when
`onlyRecording || !barsData?.length || !canvasRef.current || isResizing`,
then returns after `setBarsData([])` when `isCleared`, and otherwise calls
`drawByBlob` with the stored bars. The companion effect paints only the
background via `initialCanvasSetup` whenever
`(isProcessingRecordedAudio || isResizing) && canvasRef.current`. -/

inductive StaticAction where
  /-- the effect returned without touching the canvas -/
  | skip : StaticAction
  /-- the `isCleared` branch: `setBarsData([])`, nothing drawn -/
  | emptied : StaticAction
  /-- `drawByBlob` was called with these bars -/
  | drew : List ℚ → StaticAction
  deriving Repr, DecidableEq

/-- One run of the static-render effect: the canvas action taken and the
stored `barsData` afterwards. -/
def staticRenderStep (onlyRecording : Bool) (barsData : List ℚ)
    (canvasMounted isResizing isCleared : Bool) : StaticAction × List ℚ :=
  if onlyRecording || barsData.isEmpty || !canvasMounted || isResizing then
    (.skip, barsData)
  else if isCleared then
    (.emptied, [])
  else
    (.drew barsData, barsData)

/-- Whether the background-only paint effect calls `initialCanvasSetup`. -/
def backgroundPaintStep
    (isProcessingRecordedAudio isResizing canvasMounted : Bool) : Bool :=
  (isProcessingRecordedAudio || isResizing) && canvasMounted

/-! ## Playback progress indicator (lines 474–500)

The indicator element is rendered only under
`isProgressIndicatorShown && isAvailableRecordedAudio && !isResizing && duration`
(a JavaScript truthiness test: `duration ≠ 0`), with left position
`(currentAudioTime / duration) * canvasCurrentWidth`. -/

def progressIndicator (isProgressIndicatorShown isAvailableRecordedAudio
    isResizing : Bool) (duration currentAudioTime canvasCurrentWidth : ℚ) :
    Option ℚ :=
  if isProgressIndicatorShown && isAvailableRecordedAudio && !isResizing
      && !(decide (duration = 0)) then
    some (currentAudioTime / duration * canvasCurrentWidth)
  else
    none

/-! ## Background compute channel -/

/-- Modelled from the spec: the `useWebWorker` hook
(`src/hooks/useWebWorker.tsx`) invoked at lines 157–161 and 268–274 is not
under `src/`; §4.2, §5 and §9 describe it as a request/response channel with
a monotonically increasing request generation counter, where a response is
applied to the surface only if its generation equals the latest submitted
one (last-submitted-wins), and stale responses are silently dropped.
A request is identified here by the pixel width it was computed against. -/
structure ChannelState where
  /-- generation of the most recently submitted request (0 = none yet) -/
  latestGen : ℕ
  /-- pixel width of the most recently submitted request -/
  lastWidth : ℕ
  /-- log of all submitted requests: (generation, width) -/
  submitted : List (ℕ × ℕ)
  /-- the result currently applied to the surface: (generation, width) -/
  drawn : Option (ℕ × ℕ)
  deriving Repr, DecidableEq

inductive ChannelEvent where
  /-- a new extraction request is submitted with this pixel width -/
  | submit : ℕ → ChannelEvent
  /-- the result for request generation `gen`, computed against `width`,
  arrives from the worker -/
  | arrive : (gen : ℕ) → (width : ℕ) → ChannelEvent
  deriving Repr, DecidableEq

/-- One channel transition; the second component is the draw performed by
this event, if any. -/
def chStep (s : ChannelState) : ChannelEvent → ChannelState × Option (ℕ × ℕ)
  | .submit w =>
    ({ latestGen := s.latestGen + 1
     , lastWidth := w
     , submitted := (s.latestGen + 1, w) :: s.submitted
     , drawn := s.drawn }, none)
  | .arrive g w =>
    if g = s.latestGen then
      ({ s with drawn := some (g, w) }, some (g, w))
    else
      (s, none)

def chInit : ChannelState :=
  { latestGen := 0, lastWidth := 0, submitted := [], drawn := none }

/-- The channel state after a list of events. -/
def chRun (evs : List ChannelEvent) : ChannelState :=
  evs.foldl (fun s ev => (chStep s ev).1) chInit

/-- A coherent arrival: the response for generation `g` carries the width
that was submitted for generation `g`. -/
def coherentArrival (s : ChannelState) (g w : ℕ) : Prop :=
  (g, w) ∈ s.submitted

/-- Channel invariant: every logged request has generation at most
`latestGen`, and the request logged with `latestGen` has width
`lastWidth`. -/
def chInv (s : ChannelState) : Prop :=
  ∀ p ∈ s.submitted, p.1 ≤ s.latestGen ∧ (p.1 = s.latestGen → p.2 = s.lastWidth)

lemma chInv_step (s : ChannelState) (hs : chInv s) (ev : ChannelEvent) :
    chInv (chStep s ev).1 := by
  cases ev with
  | submit w =>
    intro p hp
    simp only [chStep, List.mem_cons] at hp ⊢
    rcases hp with hp | hp
    · subst hp; exact ⟨le_refl _, fun _ => rfl⟩
    · have h := hs p hp
      refine ⟨le_trans h.1 (Nat.le_succ _), fun hh => ?_⟩
      exfalso
      have := h.1
      omega
  | arrive g w =>
    simp only [chStep]
    by_cases h : g = s.latestGen
    · rw [if_pos h]
      exact hs
    · rw [if_neg h]
      exact hs

lemma chInv_run (evs : List ChannelEvent) : chInv (chRun evs) := by
  suffices h : ∀ s, chInv s → chInv (evs.foldl (fun s ev => (chStep s ev).1) s) by
    apply h
    intro p hp
    simp [chInit] at hp
  induction evs with
  | nil => intro s hs; exact hs
  | cons ev rest ih =>
    intro s hs
    exact ih _ (chInv_step s hs ev)

/-! ## Claim theorems -/

/-- C1: the live-stream renderer keeps a tick counter that increments on
every invocation; the draw routine runs exactly when the counter has reached
the configured speed threshold, after which the counter resets to 0 (and is
then incremented); with `speed = 3` and amplitude data present, exactly 1 of
every 3 consecutive ticks triggers a draw and the other 2 are no-ops. -/
theorem live_stream_throttle (a : ℕ → ℕ) (ha : ∀ k, a k ≠ 0) (i : ℕ) :
    (drawsAt 3 a i = true ↔ 3 ≤ counterTrace 3 a i)
    ∧ counterTrace 3 a (i + 1)
        = (if drawsAt 3 a i then 0 else counterTrace 3 a i) + 1
    ∧ (drawsAt 3 a i).toNat + (drawsAt 3 a (i + 1)).toNat
        + (drawsAt 3 a (i + 2)).toNat = 1 := by
  refine ⟨?_, rfl, ?_⟩
  · simp [drawsAt, tickDraws, ha i]
  · rw [drawsAt_three a ha i, drawsAt_three a ha (i + 1), drawsAt_three a ha (i + 2)]
    have h3 : i % 3 = 0 ∨ i % 3 = 1 ∨ i % 3 = 2 := by omega
    rcases h3 with h | h | h
    · have e1 : (i + 1) % 3 = 1 := by omega
      have e2 : (i + 2) % 3 = 2 := by omega
      simp [h, e1, e2]
    · have e1 : (i + 1) % 3 = 2 := by omega
      have e2 : (i + 2) % 3 = 0 := by omega
      simp [h, e1, e2]
    · have e1 : (i + 1) % 3 = 0 := by omega
      have e2 : (i + 2) % 3 = 1 := by omega
      simp [h, e1, e2]

theorem live_stream_throttle_witness :
    (drawsAt 3 (fun _ => 1) 0 = true ↔ 3 ≤ counterTrace 3 (fun _ => 1) 0)
    ∧ counterTrace 3 (fun _ => 1) 1
        = (if drawsAt 3 (fun _ => 1) 0 then 0 else counterTrace 3 (fun _ => 1) 0) + 1
    ∧ (drawsAt 3 (fun _ => 1) 0).toNat + (drawsAt 3 (fun _ => 1) 1).toNat
        + (drawsAt 3 (fun _ => 1) 2).toNat = 1 :=
  live_stream_throttle (fun _ => 1) (fun _ => one_ne_zero) 0

/-- C9: when the live amplitude buffer is empty, the draw branch is taken on
every tick regardless of the counter's value; when amplitude data is present
the throttle alone decides (draw exactly when the counter has reached the
speed threshold). -/
theorem live_draw_on_empty_stream (speed c l : ℕ) :
    tickDraws speed 0 c = true
    ∧ tickDraws speed (l + 1) c = decide (speed ≤ c) := by
  constructor
  · simp [tickDraws]
  · simp [tickDraws]

/-- C2: the seek time written to the playback clock and the hover time value
passed to the formatter both equal `duration * (x / surfaceWidth)` for the
pointer offset `x` on the waveform. -/
theorem geometry_to_time_mapping
    (duration canvasCurrentWidth clientX rectLeft hoveredOffsetX : ℚ) :
    handleRecordedAudioCurrentTime duration canvasCurrentWidth clientX rectLeft
      = duration * ((clientX - rectLeft) / canvasCurrentWidth)
    ∧ hoverTimeValue duration canvasCurrentWidth hoveredOffsetX
      = duration * (hoveredOffsetX / canvasCurrentWidth) := by
  constructor
  · unfold handleRecordedAudioCurrentTime
    rw [div_mul_eq_mul_div, mul_div_assoc]
  · unfold hoverTimeValue
    rw [div_mul_eq_mul_div, mul_div_assoc]

/-- C7 counterexample: with `barWidth = 2`, `gap = 3` on a desktop viewport,
the live-stream pitch `unit` is `2 + 3 * 2 = 8`, not bar width plus gap
(`2 + 3 = 5`). -/
theorem unit_ne_barWidth_plus_gap :
    unit 2 3 1024 = 8
    ∧ formattedBarWidth 2 3 1024 + formattedGap 3 = 5
    ∧ (8 : ℤ) ≠ 5 := by
  refine ⟨?_, ?_, by decide⟩
  · norm_num [unit, formattedBarWidth, formattedGap, jsTrunc, isMobile]
  · norm_num [formattedBarWidth, formattedGap, jsTrunc, isMobile]

/-- C7 amended: the pitch passed to the live-stream renderer equals the
effective bar width times one plus the effective gap
(`formattedBarWidth + formattedGap * formattedBarWidth`), not bar width
plus gap. -/
theorem unit_eq_barWidth_mul_one_add_gap (barWidth gap screenWidth : ℚ) :
    unit barWidth gap screenWidth
      = formattedBarWidth barWidth gap screenWidth * (1 + formattedGap gap) := by
  unfold unit
  ring

/-- C8 counterexample: with viewport width 500 (below the 768 breakpoint)
and `gap = 1/2 > 0`, the effective bar width for `barWidth = 2` is 2, not
the claimed `2 + 1 = 3`, because the code tests `Math.trunc(gap) > 0`. -/
theorem mobile_width_fractional_gap :
    isMobile 500 = true ∧ (0 : ℚ) < 1/2
    ∧ formattedBarWidth 2 (1/2) 500 = 2
    ∧ jsTrunc 2 + 1 = 3 ∧ (2 : ℤ) ≠ 3 := by
  refine ⟨by norm_num [isMobile], by norm_num, ?_, ?_, by decide⟩
  · norm_num [formattedBarWidth, formattedGap, jsTrunc, isMobile]
  · norm_num [jsTrunc]

/-- C8 amended: when the viewport is below the mobile breakpoint and the
*truncated* gap is positive, the effective bar width is the truncated
configured bar width plus 1; otherwise it is the truncated configured bar
width. -/
theorem mobile_width_heuristic (barWidth gap screenWidth : ℚ)
    (hw : 0 ≤ barWidth) :
    (screenWidth < 768 → 0 < formattedGap gap →
      formattedBarWidth barWidth gap screenWidth = jsTrunc barWidth + 1)
    ∧ (¬ (screenWidth < 768 ∧ 0 < formattedGap gap) →
      formattedBarWidth barWidth gap screenWidth = jsTrunc barWidth) := by
  constructor
  · intro hsm hsg
    unfold formattedBarWidth
    rw [if_pos ⟨by simp [isMobile, hsm], hsg⟩]
    unfold jsTrunc
    rw [if_pos (by linarith), if_pos hw]
    exact_mod_cast Int.floor_add_one barWidth
  · intro hneg
    unfold formattedBarWidth
    rw [if_neg ?_]
    intro hc
    apply hneg
    refine ⟨?_, hc.2⟩
    have := hc.1
    simpa [isMobile] using this

theorem mobile_width_heuristic_witness :
    (0 ≤ (2 : ℚ) ∧ (500 : ℚ) < 768 ∧ 0 < formattedGap 2)
    ∧ formattedBarWidth 2 2 500 = jsTrunc 2 + 1 :=
  ⟨⟨by norm_num, by norm_num, by norm_num [formattedGap, jsTrunc]⟩,
   (mobile_width_heuristic 2 2 500 (by norm_num)).1 (by norm_num)
     (by norm_num [formattedGap, jsTrunc])⟩

/-- C3: after any sequence of channel events, a coherently-tagged arrival is
drawn only if its generation is the latest submitted one; whatever is drawn
always matches the last-submitted request and its geometry, so a result
computed against an earlier request's width is never applied. -/
theorem stale_result_discard (evs : List ChannelEvent) (g w : ℕ)
    (hcoh : coherentArrival (chRun evs) g w) :
    (g ≠ (chRun evs).latestGen →
      (chStep (chRun evs) (.arrive g w)).2 = none)
    ∧ (∀ g' w', (chStep (chRun evs) (.arrive g w)).2 = some (g', w') →
        g' = (chRun evs).latestGen ∧ w' = (chRun evs).lastWidth) := by
  have hinv := chInv_run evs
  constructor
  · intro hne
    simp [chStep, hne]
  · intro g' w' hdraw
    by_cases h : g = (chRun evs).latestGen
    · simp only [chStep, if_pos h] at hdraw
      have hpair : g = g' ∧ w = w' := by
        simpa using hdraw
      obtain ⟨hg, hw⟩ := hpair
      subst hg
      subst hw
      exact ⟨h, (hinv (g, w) hcoh).2 h⟩
    · simp [chStep, h] at hdraw

theorem stale_result_discard_witness :
    coherentArrival (chRun [ChannelEvent.submit 100, ChannelEvent.submit 200]) 2 200
    ∧ 2 = (chRun [ChannelEvent.submit 100, ChannelEvent.submit 200]).latestGen
    ∧ 200 = (chRun [ChannelEvent.submit 100, ChannelEvent.submit 200]).lastWidth :=
  ⟨by unfold coherentArrival; decide,
   (stale_result_discard [ChannelEvent.submit 100, ChannelEvent.submit 200] 2 200
       (by unfold coherentArrival; decide)).2 2 200 (by decide)⟩

/-- C4: on every resize recomputation the new canvas pixel width is the
half-up rounding of `containerWidth * devicePixelRatio` (it is the integer
within 1/2 above and strictly within 1/2 below that product), and the new
canvas pixel height is an even integer obtained by rounding
`containerHeight * devicePixelRatio` down to an even value. -/
theorem resize_geometry (clientWidth clientHeight devicePixelRatio innerWidth : ℚ)
    (hh : 0 ≤ clientHeight * devicePixelRatio) :
    (((onResize clientWidth clientHeight devicePixelRatio innerWidth).canvasWidth : ℚ)
        ≤ clientWidth * devicePixelRatio + 1/2
      ∧ clientWidth * devicePixelRatio - 1/2
        < ((onResize clientWidth clientHeight devicePixelRatio innerWidth).canvasWidth : ℚ))
    ∧ Even (onResize clientWidth clientHeight devicePixelRatio innerWidth).canvasCurrentHeight
    ∧ ((onResize clientWidth clientHeight devicePixelRatio innerWidth).canvasCurrentHeight : ℚ)
        ≤ clientHeight * devicePixelRatio
    ∧ clientHeight * devicePixelRatio
        < ((onResize clientWidth clientHeight devicePixelRatio innerWidth).canvasCurrentHeight : ℚ) + 2 := by
  set x := clientWidth * devicePixelRatio with hx
  set y := clientHeight * devicePixelRatio with hy
  have hfl : ∀ q : ℚ, (⌊q⌋ : ℚ) ≤ q := fun q => Int.floor_le q
  have hfl2 : ∀ q : ℚ, q < (⌊q⌋ : ℚ) + 1 := fun q => Int.lt_floor_add_one q
  refine ⟨⟨?_, ?_⟩, ?_, ?_, ?_⟩
  · show ((jsRound x : ℤ) : ℚ) ≤ x + 1/2
    unfold jsRound
    exact hfl (x + 1/2)
  · show x - 1/2 < ((jsRound x : ℤ) : ℚ)
    unfold jsRound
    have := hfl2 (x + 1/2)
    linarith
  · exact ⟨jsTrunc (y / 2), by unfold onResize; ring⟩
  · show ((jsTrunc (y / 2) * 2 : ℤ) : ℚ) ≤ y
    unfold jsTrunc
    rw [if_pos (by linarith)]
    have := hfl (y / 2)
    push_cast
    linarith
  · show y < ((jsTrunc (y / 2) * 2 : ℤ) : ℚ) + 2
    unfold jsTrunc
    rw [if_pos (by linarith)]
    have := hfl2 (y / 2)
    push_cast
    linarith

theorem resize_geometry_witness :
    0 ≤ (151 : ℚ) * (3/2)
    ∧ ((((onResize 300 151 (3/2) 1024).canvasWidth : ℚ) ≤ 300 * (3/2) + 1/2
        ∧ (300 : ℚ) * (3/2) - 1/2 < ((onResize 300 151 (3/2) 1024).canvasWidth : ℚ))
      ∧ Even (onResize 300 151 (3/2) 1024).canvasCurrentHeight
      ∧ (((onResize 300 151 (3/2) 1024).canvasCurrentHeight : ℚ) ≤ 151 * (3/2)
      ∧ (151 : ℚ) * (3/2) < ((onResize 300 151 (3/2) 1024).canvasCurrentHeight : ℚ) + 2)) :=
  ⟨by norm_num,
   ⟨(resize_geometry 300 151 (3/2) 1024 (by norm_num)).1,
    (resize_geometry 300 151 (3/2) 1024 (by norm_num)).2.1,
    (resize_geometry 300 151 (3/2) 1024 (by norm_num)).2.2⟩⟩

/-- C5: while the resizing flag is set the static-render effect takes no
canvas action and leaves the stored bars untouched; the only surface write
possible in that interval is the background paint; and the bar-drawing
action can occur only when the resizing flag is clear. -/
theorem resize_skips_static_render (onlyRecording : Bool) (barsData : List ℚ)
    (canvasMounted isCleared isProcessing isResizing : Bool) :
    staticRenderStep onlyRecording barsData canvasMounted true isCleared
        = (.skip, barsData)
    ∧ backgroundPaintStep isProcessing true canvasMounted = canvasMounted
    ∧ (∀ b, (staticRenderStep onlyRecording barsData canvasMounted isResizing
        isCleared).1 = .drew b → isResizing = false) := by
  refine ⟨?_, ?_, ?_⟩
  · simp [staticRenderStep]
  · simp [backgroundPaintStep]
  · intro b h
    cases isResizing with
    | false => rfl
    | true => simp [staticRenderStep] at h

theorem resize_skips_static_render_witness :
    (staticRenderStep false [(1:ℚ)/2] true false false).1
        = StaticAction.drew [(1:ℚ)/2]
    ∧ (false : Bool) = false :=
  ⟨rfl, (resize_skips_static_render false [(1:ℚ)/2] true false false false).2.2
    [(1:ℚ)/2] rfl⟩

/-- C6 counterexample: with the cleared flag set but a resize in progress
(and a nonempty stored sequence), the static render step leaves the stored
BarSequence untouched — it is not set to the empty list as the claim
states. -/
theorem cleared_not_emptied_while_resizing :
    (staticRenderStep false [(1:ℚ)] true true true).2 = [(1:ℚ)]
    ∧ [(1:ℚ)] ≠ ([] : List ℚ) := by
  refine ⟨rfl, by simp⟩

/-- C6 amended: when the cleared flag is set the static render step never
draws bars; it empties the stored BarSequence exactly when its entry guards
pass (not only-recording, stored sequence nonempty, canvas mounted, no
resize in progress): when they pass the step yields `(.emptied, [])`, when
any entry guard fails the step takes no action and leaves the stored
sequence unchanged, and the emptied action occurs only with all guards
passing. -/
theorem cleared_fast_path (onlyRecording : Bool) (barsData : List ℚ)
    (canvasMounted isResizing : Bool) :
    (∀ b, (staticRenderStep onlyRecording barsData canvasMounted isResizing
        true).1 ≠ .drew b)
    ∧ (onlyRecording = false → barsData ≠ [] → canvasMounted = true →
        isResizing = false →
        staticRenderStep onlyRecording barsData canvasMounted isResizing true
          = (.emptied, []))
    ∧ ((onlyRecording = true ∨ barsData = [] ∨ canvasMounted = false
          ∨ isResizing = true) →
        staticRenderStep onlyRecording barsData canvasMounted isResizing true
          = (.skip, barsData))
    ∧ ((staticRenderStep onlyRecording barsData canvasMounted isResizing
          true).1 = .emptied →
        onlyRecording = false ∧ barsData ≠ [] ∧ canvasMounted = true
          ∧ isResizing = false) := by
  refine ⟨?_, ?_, ?_, ?_⟩
  · intro b
    unfold staticRenderStep
    split
    · simp
    · simp
  · intro h1 h2 h3 h4
    subst h1
    subst h3
    subst h4
    cases barsData with
    | nil => exact absurd rfl h2
    | cons q qs => simp [staticRenderStep]
  · intro hfail
    unfold staticRenderStep
    rw [if_pos ?_]
    rcases hfail with h | h | h | h
    · simp [h]
    · simp [h]
    · simp [h]
    · simp [h]
  · intro he
    unfold staticRenderStep at he
    split at he
    · simp at he
    · next hc =>
      simp only [Bool.or_eq_true, not_or, Bool.not_eq_true] at hc
      obtain ⟨⟨⟨h1, h2⟩, h3⟩, h4⟩ := hc
      have hb : barsData ≠ [] := by
        intro hnil
        rw [hnil] at h2
        simp at h2
      have hm : canvasMounted = true := by
        cases canvasMounted with
        | true => rfl
        | false => simp at h3
      exact ⟨h1, hb, hm, h4⟩

theorem cleared_fast_path_witness :
    ((false : Bool) = false ∧ [(1:ℚ)] ≠ ([] : List ℚ)
      ∧ (true : Bool) = true ∧ (false : Bool) = false)
    ∧ staticRenderStep false [(1:ℚ)] true false true = (.emptied, [])
    ∧ staticRenderStep true [(1:ℚ)] true false true = (.skip, [(1:ℚ)])
    ∧ ((false : Bool) = false ∧ [(1:ℚ)] ≠ ([] : List ℚ)
      ∧ (true : Bool) = true ∧ (false : Bool) = false) :=
  ⟨⟨rfl, by simp, rfl, rfl⟩,
   (cleared_fast_path false [(1:ℚ)] true false).2.1 rfl (by simp) rfl rfl,
   (cleared_fast_path true [(1:ℚ)] true false).2.2.1 (Or.inl rfl),
   (cleared_fast_path false [(1:ℚ)] true false).2.2.2 (by simp [staticRenderStep])⟩

/-- C10: whenever the playback progress indicator is rendered (the guard
produces a position), the duration is nonzero and no resize is in progress;
its left position is `currentAudioTime / duration * canvasCurrentWidth`, so
the division never happens with `duration = 0`. -/
theorem progress_indicator_guard (shown avail isResizing : Bool)
    (duration currentAudioTime canvasCurrentWidth t : ℚ)
    (h : progressIndicator shown avail isResizing duration currentAudioTime
      canvasCurrentWidth = some t) :
    duration ≠ 0 ∧ isResizing = false
    ∧ t = currentAudioTime / duration * canvasCurrentWidth := by
  unfold progressIndicator at h
  split at h
  · next hc =>
    simp only [Bool.and_eq_true, Bool.not_eq_true', decide_eq_false_iff_not] at hc
    obtain ⟨⟨⟨_, _⟩, hr⟩, hd⟩ := hc
    refine ⟨hd, hr, ?_⟩
    exact (Option.some.injEq _ _ ▸ h).symm
  · exact absurd h (by simp)

theorem progress_indicator_guard_witness :
    progressIndicator true true false 10 5 100 = some 50
    ∧ ((10 : ℚ) ≠ 0 ∧ (false : Bool) = false ∧ (50 : ℚ) = 5 / 10 * 100) :=
  ⟨by norm_num [progressIndicator],
   progress_indicator_guard true true false 10 5 100 50
     (by norm_num [progressIndicator])⟩

end VoiceVisualizer
